import Mathlib

/-!
Verification of the Agri-Trust core: content addressing (`computeCid`),
credential issuance (`issueVerifiableCredential`), credential verification
(`validateVcSignature`), the hash-chained transparency log
(`appendToTransparencyLog`, `checkTransparencyLog`), the consumer-code lookup
index (`getCodeMapping`, `addCodeMapping`), and the batch-submission workflow
(`handleFinalSubmit` from `FarmerInputPage.tsx`).

The source hashes with `js-sha256`; we embed a full SHA-256 over `Nat`
(32-bit words represented as naturals reduced mod 2^32) so that digests of
concrete inputs are computable by the kernel.  JavaScript values reachable by
`validateVcSignature` (which takes `any`) are embedded as the inductive
`JsVal`, with JS member access, optional chaining, truthiness,
template-string coercion and `JSON.stringify` modelled explicitly; a thrown
`TypeError` is an `Except.error`.
-/

/-! ## SHA-256 over naturals (embedding of the `js-sha256` dependency) -/

/-- Reduce to a 32-bit word. -/
def w32 (n : Nat) : Nat := n % 4294967296

/-- 32-bit right rotation. -/
def rotr32 (k x : Nat) : Nat := w32 ((x >>> k) ||| (x <<< (32 - k)))

/-- SHA-256 Ch function. -/
def shaCh (x y z : Nat) : Nat := (x &&& y) ^^^ ((x ^^^ 4294967295) &&& z)

/-- SHA-256 Maj function. -/
def shaMaj (x y z : Nat) : Nat := (x &&& y) ^^^ (x &&& z) ^^^ (y &&& z)

/-- SHA-256 big sigma 0. -/
def bsig0 (x : Nat) : Nat := rotr32 2 x ^^^ rotr32 13 x ^^^ rotr32 22 x

/-- SHA-256 big sigma 1. -/
def bsig1 (x : Nat) : Nat := rotr32 6 x ^^^ rotr32 11 x ^^^ rotr32 25 x

/-- SHA-256 small sigma 0. -/
def ssig0 (x : Nat) : Nat := rotr32 7 x ^^^ rotr32 18 x ^^^ (x >>> 3)

/-- SHA-256 small sigma 1. -/
def ssig1 (x : Nat) : Nat := rotr32 17 x ^^^ rotr32 19 x ^^^ (x >>> 10)

/-- The 64 SHA-256 round constants of FIPS 180-4 (fractional parts of the
cube roots of the first 64 primes), written in decimal. -/
def K256 : List Nat :=
  [1116352408, 1899447441, 3049323471, 3921009573, 961987163,
   1508970993, 2453635748, 2870763221, 3624381080, 310598401,
   607225278, 1426881987, 1925078388, 2162078206, 2614888103,
   3248222580, 3835390401, 4022224774, 264347078, 604807628,
   770255983, 1249150122, 1555081692, 1996064986, 2554220882,
   2821834349, 2952996808, 3210313671, 3336571891, 3584528711,
   113926993, 338241895, 666307205, 773529912, 1294757372,
   1396182291, 1695183700, 1986661051, 2177026350, 2456956037,
   2730485921, 2820302411, 3259730800, 3345764771, 3516065817,
   3600352804, 4094571909, 275423344, 430227734, 506948616,
   659060556, 883997877, 958139571, 1322822218, 1537002063,
   1747873779, 1955562222, 2024104815, 2227730452, 2361852424,
   2428436474, 2756734187, 3204031479, 3329325298]

/-- Working state: eight 32-bit words. -/
structure Hash8 where
  a : Nat
  b : Nat
  c : Nat
  d : Nat
  e : Nat
  f : Nat
  g : Nat
  h : Nat
  deriving DecidableEq

/-- The eight initial SHA-256 hash words of FIPS 180-4, in decimal. -/
def initH : Hash8 :=
  ⟨1779033703, 3144134277, 1013904242, 2773480762,
   1359893119, 2600822924, 528734635, 1541459225⟩

/-- One compression round with round constant `k` and schedule word `w`. -/
def compressStep (s : Hash8) (k w : Nat) : Hash8 :=
  let t1 := w32 (s.h + bsig1 s.e + shaCh s.e s.f s.g + k + w)
  let t2 := w32 (bsig0 s.a + shaMaj s.a s.b s.c)
  ⟨w32 (t1 + t2), s.a, s.b, s.c, w32 (s.d + t1), s.e, s.f, s.g⟩

/-- Run the 64 compression rounds over paired (constant, schedule) words. -/
def foldSteps : Hash8 → List (Nat × Nat) → Hash8
  | s, [] => s
  | s, (k, w) :: rest => foldSteps (compressStep s k w) rest

/-- One message-schedule extension step over the reversed schedule list
(head is the most recent word `W[t-1]`). -/
def stepW (rws : List Nat) : List Nat :=
  w32 (ssig1 (rws.getD 1 0) + rws.getD 6 0 + ssig0 (rws.getD 14 0) + rws.getD 15 0) :: rws

/-- Iterate the schedule extension `n` times. -/
def extendW : Nat → List Nat → List Nat
  | 0, rws => rws
  | n + 1, rws => extendW n (stepW rws)

/-- Big-endian combination of bytes into 32-bit words (input length a
multiple of 4; stray trailing bytes are dropped). -/
def bytesToWords : List Nat → List Nat
  | b0 :: b1 :: b2 :: b3 :: rest => (((b0 * 256 + b1) * 256 + b2) * 256 + b3) :: bytesToWords rest
  | _ => []

/-- Compress one 64-byte block into the running state. -/
def processBlock (s : Hash8) (block : List Nat) : Hash8 :=
  let w16 := bytesToWords block
  let ws := (extendW 48 w16.reverse).reverse
  let t := foldSteps s (K256.zip ws)
  ⟨w32 (s.a + t.a), w32 (s.b + t.b), w32 (s.c + t.c), w32 (s.d + t.d),
   w32 (s.e + t.e), w32 (s.f + t.f), w32 (s.g + t.g), w32 (s.h + t.h)⟩

/-- Fold the block compression over a list of blocks. -/
def processBlocks : Hash8 → List (List Nat) → Hash8
  | s, [] => s
  | s, b :: rest => processBlocks (processBlock s b) rest

/-- Chunking worker: `rem` is the room left in the current chunk, `acc` the
current chunk reversed.  Structural recursion so concrete digests reduce. -/
def chunkGo : Nat → List Nat → List Nat → List (List Nat)
  | _, acc, [] => if acc.isEmpty then [] else [acc.reverse]
  | rem, acc, x :: xs =>
    if rem ≤ 1 then ((x :: acc).reverse) :: chunkGo 64 [] xs
    else chunkGo (rem - 1) (x :: acc) xs

/-- Split a byte list into 64-byte chunks. -/
def chunk64 (l : List Nat) : List (List Nat) := chunkGo 64 [] l

/-- `n` big-endian bytes of a natural number (most significant first). -/
def natToBytesBE : Nat → Nat → List Nat
  | 0, _ => []
  | k + 1, n => natToBytesBE k (n / 256) ++ [n % 256]

/-- SHA-256 padding: append `0x80`, zero bytes to 56 mod 64, then the
64-bit big-endian bit length. -/
def padMessage (msg : List Nat) : List Nat :=
  let L := msg.length
  let zeros := (120 - ((L + 1) % 64)) % 64
  msg ++ [128] ++ List.replicate zeros 0 ++ natToBytesBE 8 (8 * L)

/-- UTF-8 encoding of a single character. -/
def utf8Bytes (c : Char) : List Nat :=
  let n := c.toNat
  if n < 128 then [n]
  else if n < 2048 then [192 ||| (n >>> 6), 128 ||| (n &&& 63)]
  else if n < 65536 then
    [224 ||| (n >>> 12), 128 ||| ((n >>> 6) &&& 63), 128 ||| (n &&& 63)]
  else
    [240 ||| (n >>> 18), 128 ||| ((n >>> 12) &&& 63),
     128 ||| ((n >>> 6) &&& 63), 128 ||| (n &&& 63)]

/-- UTF-8 bytes of a string. -/
def strBytes (s : String) : List Nat := s.data.flatMap utf8Bytes

/-- Digest of a byte message. -/
def sha256Core (msg : List Nat) : Hash8 := processBlocks initH (chunk64 (padMessage msg))

/-- Hex digit character (lowercase, as produced by `js-sha256`). -/
def hexChar : Nat → Char
  | 0 => '0' | 1 => '1' | 2 => '2' | 3 => '3' | 4 => '4' | 5 => '5' | 6 => '6'
  | 7 => '7' | 8 => '8' | 9 => '9' | 10 => 'a' | 11 => 'b' | 12 => 'c' | 13 => 'd'
  | 14 => 'e' | _ => 'f'

/-- Exactly `k` hex digits of `n`, most significant first. -/
def hexDigits : Nat → Nat → List Char
  | 0, _ => []
  | k + 1, n => hexDigits k (n / 16) ++ [hexChar (n % 16)]

/-- Embedding of `sha256` from `js-sha256`: lowercase hex digest of the
UTF-8 bytes of the input string. -/
def sha256 (s : String) : String :=
  let d := sha256Core (strBytes s)
  String.mk (hexDigits 8 d.a ++ hexDigits 8 d.b ++ hexDigits 8 d.c ++ hexDigits 8 d.d ++
    hexDigits 8 d.e ++ hexDigits 8 d.f ++ hexDigits 8 d.g ++ hexDigits 8 d.h)

/-! ## JavaScript values

`validateVcSignature` takes `any`, so we embed the JavaScript values that can
reach it: `undefined`, `null`, booleans, (integer) numbers, strings, arrays
and objects (fields in insertion order, as `JSON.stringify` serializes
them). -/

/-- A JavaScript value. -/
inductive JsVal where
  | undefined : JsVal
  | null : JsVal
  | bool : Bool → JsVal
  | num : Int → JsVal
  | str : String → JsVal
  | arr : List JsVal → JsVal
  | obj : List (String × JsVal) → JsVal

/-- Object property lookup in field order; `undefined` when missing. -/
def lookupField : List (String × JsVal) → String → JsVal
  | [], _ => .undefined
  | (k, v) :: rest, key => if k == key then v else lookupField rest key

/-- Plain member access `v.key`: throws `TypeError` on `undefined`/`null`,
yields `undefined` on primitives and missing fields. -/
def getF : JsVal → String → Except String JsVal
  | .undefined, _ => .error "TypeError"
  | .null, _ => .error "TypeError"
  | .obj fs, key => .ok (lookupField fs key)
  | _, _ => .ok .undefined

/-- Optional-chaining access `v?.key`: `undefined` instead of throwing. -/
def optF : JsVal → String → JsVal
  | .undefined, _ => .undefined
  | .null, _ => .undefined
  | .obj fs, key => lookupField fs key
  | _, _ => .undefined

/-- JavaScript truthiness. -/
def truthy : JsVal → Bool
  | .undefined => false
  | .null => false
  | .bool b => b
  | .num n => n != 0
  | .str s => s != ""
  | .arr _ => true
  | .obj _ => true

/-- Is the value `undefined`? (absence of a property). -/
def isUndefined : JsVal → Bool
  | .undefined => true
  | _ => false

/-- Is the value `undefined` or `null`? (member access on it throws). -/
def isNullish : JsVal → Bool
  | .undefined => true
  | .null => true
  | _ => false

/-- JavaScript `String(v)` as used by template-string interpolation. -/
def jsToString : JsVal → String
  | .undefined => "undefined"
  | .null => "null"
  | .bool true => "true"
  | .bool false => "false"
  | .num n => toString n
  | .str s => s
  | .arr _ => ""
  | .obj _ => "[object Object]"

/-- `JSON.stringify` escaping of one string character. -/
def escChar (c : Char) : String :=
  if c = '"' then "\\\""
  else if c = '\\' then "\\\\"
  else if c = '\n' then "\\n"
  else if c = '\t' then "\\t"
  else if c = '\r' then "\\r"
  else if c = '\x08' then "\\b"
  else if c = '\x0c' then "\\f"
  else if c.toNat < 32 then "\\u00" ++ String.mk (hexDigits 2 c.toNat)
  else String.singleton c

/-- `JSON.stringify` of a string literal. -/
def quoteStr (s : String) : String :=
  "\"" ++ String.join (s.data.map escChar) ++ "\""

mutual

/-- Embedding of `JSON.stringify` (no spacing, object fields in insertion
order — the source never canonicalizes).  Object fields whose value is
`undefined` are omitted; `undefined` array elements serialize as `null`
(top-level `undefined`, which real `JSON.stringify` maps to `undefined`,
is unreachable from the repository's calls and rendered as `"null"`). -/
def jsonStringify : JsVal → String
  | .undefined => "null"
  | .null => "null"
  | .bool true => "true"
  | .bool false => "false"
  | .num n => toString n
  | .str s => quoteStr s
  | .arr xs => "[" ++ String.intercalate "," (stringifyElems xs) ++ "]"
  | .obj fs => "\x7b" ++ String.intercalate "," (stringifyProps fs) ++ "\x7d"

/-- Serialized array elements. -/
def stringifyElems : List JsVal → List String
  | [] => []
  | v :: rest => jsonStringify v :: stringifyElems rest

/-- Serialized object properties, omitting `undefined` values. -/
def stringifyProps : List (String × JsVal) → List String
  | [] => []
  | (_, .undefined) :: rest => stringifyProps rest
  | (k, v) :: rest => (quoteStr k ++ ":" ++ jsonStringify v) :: stringifyProps rest

end

/-! ## The Agri-Trust core (`components/Input.tsx`)

Stateful functions read and write `localStorage` collections; we pass the
relevant collection explicitly and return the updated one.  Timestamps
(`new Date().toISOString()`) and the `uuidv4()` draw are nondeterministic
inputs and become explicit parameters. -/

/-- `computeCid`: `sha256(JSON.stringify(data))`. -/
def computeCid (data : JsVal) : String := sha256 (jsonStringify data)

/-- Result of `issueVerifiableCredential`. -/
structure VcIssueResult where
  vcObject : JsVal
  vcDigest : String

/-- `issueVerifiableCredential(cid, farmerId, batchId)`; `timestamp` is the
captured `new Date().toISOString()` and `uuid` the `uuidv4()` draw. -/
def issueVerifiableCredential (cid farmerId batchId timestamp uuid : String) : VcIssueResult :=
  let issuerDid := "did:agritrust:" ++ farmerId
  let mockSignature :=
    sha256 (cid ++ "-" ++ timestamp ++ "-" ++ issuerDid ++ "-" ++ batchId ++ "-secret-key")
  let vcObject : JsVal := .obj
    [("@context", .arr [.str "https://www.w3.org/2018/credentials/v1"]),
     ("type", .arr [.str "VerifiableCredential", .str "AgriTrustBatchCredential"]),
     ("id", .str ("vc:" ++ uuid)),
     ("issuer", .str issuerDid),
     ("issuanceDate", .str timestamp),
     ("credentialSubject", .obj
       [("id", .str ("did:agritrust:batch:" ++ batchId)),
        ("cid", .str cid),
        ("batchId", .str batchId),
        ("farmerId", .str farmerId)]),
     ("proof", .obj
       [("type", .str "Ed25519Signature2020"),
        ("created", .str timestamp),
        ("verificationMethod", .str (issuerDid ++ "#key1")),
        ("proofPurpose", .str "assertionMethod"),
        ("signatureValue", .str mockSignature)])]
  ⟨vcObject, sha256 (jsonStringify vcObject)⟩

/-- JavaScript strict equality between a string and a value, as in
`expectedMockSignature === vcObject.proof.signatureValue`. -/
def strictEqStr (s : String) : JsVal → Bool
  | .str t => s == t
  | _ => false

/-- `validateVcSignature(vcObject)`.  The guard uses optional chaining and
truthiness exactly as the source
(`!vcObject?.proof?.signatureValue || !vcObject?.proof?.created ||
!vcObject?.issuer`); past the guard, `vcObject.credentialSubject.cid` and
`.batchId` are dereferenced without a guard, so a nullish
`credentialSubject` throws — modelled as `Except.error`. -/
def validateVcSignature (vcObject : JsVal) : Except String Bool :=
  if !truthy (optF (optF vcObject "proof") "signatureValue")
      || !truthy (optF (optF vcObject "proof") "created")
      || !truthy (optF vcObject "issuer") then
    .ok false
  else do
    let issuerDid ← getF vcObject "issuer"
    let cid ← getF (← getF vcObject "credentialSubject") "cid"
    let batchId ← getF (← getF vcObject "credentialSubject") "batchId"
    let timestamp ← getF (← getF vcObject "proof") "created"
    let expectedMockSignature := sha256
      (jsToString cid ++ "-" ++ jsToString timestamp ++ "-" ++ jsToString issuerDid ++ "-" ++
        jsToString batchId ++ "-secret-key")
    let sigVal ← getF (← getF vcObject "proof") "signatureValue"
    return strictEqStr expectedMockSignature sigVal

/-- A transparency-log entry. -/
structure LogEntry where
  index : Nat
  digest : String
  previousHash : Option String
  timestamp : String
  cid : String
  deriving DecidableEq

/-- `appendToTransparencyLog(vcDigest, cid)` over an explicit log; `now` is
the captured timestamp.  `previousHash` mirrors
`log.length > 0 ? log[log.length - 1].digest : null`.  Returns the new log
and the returned index. -/
def appendToTransparencyLog (log : List LogEntry) (vcDigest cid now : String) :
    List LogEntry × Nat :=
  let previousHash := (log.getLast?).map (fun e => e.digest)
  let newEntry : LogEntry :=
    { index := log.length, digest := vcDigest, previousHash := previousHash,
      timestamp := now, cid := cid }
  (log ++ [newEntry], newEntry.index)

/-- Result of `checkTransparencyLog`: the source's `{ exists, consistent }`
object (`entryExists` renders the `exists` field). -/
structure TlCheck where
  entryExists : Bool
  consistent : Bool
  deriving DecidableEq

/-- `checkTransparencyLog(vcDigest, expectedCid)`: first entry whose digest
matches, then compare its stored cid. -/
def checkTransparencyLog (log : List LogEntry) (vcDigest expectedCid : String) : TlCheck :=
  match log.find? (fun e => e.digest == vcDigest) with
  | none => ⟨false, false⟩
  | some entry => if entry.cid != expectedCid then ⟨true, false⟩ else ⟨true, true⟩

/-- A consumer-code mapping value `{ cid, vcDigest, batchId }`. -/
structure CodeMapping where
  cid : String
  vcDigest : String
  batchId : String
  deriving DecidableEq

/-- The codes collection: a JS object keyed by consumer code. -/
abbrev CodeStore := List (String × CodeMapping)

/-- `getCodeMapping(consumerCode)`: property lookup on the codes object. -/
def getCodeMapping (codes : CodeStore) (consumerCode : String) : Option CodeMapping :=
  (codes.find? (fun kv => kv.1 == consumerCode)).map (fun kv => kv.2)

/-- `addCodeMapping(consumerCode, cid, vcDigest, batchId)`:
`codes[consumerCode] = { cid, vcDigest, batchId }` — JS object assignment
updates an existing key in place, otherwise appends. -/
def addCodeMapping (codes : CodeStore) (consumerCode cid vcDigest batchId : String) : CodeStore :=
  match codes with
  | [] => [(consumerCode, ⟨cid, vcDigest, batchId⟩)]
  | (k, v) :: rest =>
    if k == consumerCode then (consumerCode, (⟨cid, vcDigest, batchId⟩ : CodeMapping)) :: rest
    else (k, v) :: addCodeMapping rest consumerCode cid vcDigest batchId

/-- A farmer record (the fields the submission workflow reads). -/
structure Farmer where
  id : String
  name : String
  deriving DecidableEq

/-- `getFarmerById(id)`: `getFarmers().find((f) => f.id === id)`. -/
def getFarmerById (farmers : List Farmer) (id : String) : Option Farmer :=
  farmers.find? (fun f => f.id == id)

/-! ## The batch-submission workflow (`pages/FarmerInputPage.tsx`,
`handleFinalSubmit`)

The workflow is embedded over an explicit database holding the collections
the durable steps write (batches, claims, codes, transparency log) plus the
farmers collection it reads.  The `≤ 100` random code candidates drawn by
the generation loop are an explicit input list; `Math.random`, timestamps
and uuids are explicit inputs.  A JavaScript exception thrown by one of the
fallible steps (the claim's "digest or issuance or log append throwing", or
a storage write fault) is modelled by the oracle `throwAt`, consulted before
the step's writes; the `catch` block writes nothing, so an abort returns the
database as it stood when the exception was raised. -/

/-- A batch record (the fields the core reads or writes back; the remaining
form fields are opaque payload carried in the cid input). -/
structure BatchRec where
  id : String
  farmerId : String
  consumerCode : String
  cid : String
  vcDigest : String
  deriving DecidableEq

/-- The persisted collections touched by the workflow. -/
structure Db where
  farmers : List Farmer
  batches : List BatchRec
  claims : List JsVal
  codes : CodeStore
  log : List LogEntry

/-- The fallible steps of `handleFinalSubmit` after code generation and the
farmer lookup. -/
inductive SubmitStep where
  | computeCidStep
  | issueVcStep
  | appendLogStep
  | addBatchStep
  | addClaimsStep
  | addCodeMappingStep
  deriving DecidableEq

/-- Why a submission aborted (the `catch` branch). -/
inductive SubmitError where
  | stepThrew : SubmitStep → SubmitError
  | codeGenerationExhausted : SubmitError
  | farmerMissing : SubmitError
  deriving DecidableEq

/-- The nondeterministic inputs of one submission. -/
structure SubmitArgs where
  userId : String
  codeCandidates : List String
  batchUuid : String
  vcUuid : String
  issueTimestamp : String
  logTimestamp : String
  payload : JsVal
  claimsPayload : List JsVal

/-- The `while (attempts < 100)` uniqueness loop: first candidate code not
present in the codes object, `none` when the budget is exhausted. -/
def generateUniqueCode (codes : CodeStore) : List String → Option String
  | [] => none
  | c :: rest =>
    if (getCodeMapping codes c).isNone then some c else generateUniqueCode codes rest

/-- `handleFinalSubmit`: generate a unique code, look up the farmer, compute
the cid, issue the credential, append to the transparency log, then persist
batch, claims and the code mapping — in the source's order.  Returns the
resulting database and either the consumer code or the abort reason. -/
def handleFinalSubmit (db : Db) (a : SubmitArgs) (throwAt : SubmitStep → Bool) :
    Db × Except SubmitError String :=
  match generateUniqueCode db.codes (a.codeCandidates.take 100) with
  | none => (db, .error .codeGenerationExhausted)
  | some consumerCode =>
    match getFarmerById db.farmers a.userId with
    | none => (db, .error .farmerMissing)
    | some _farmer =>
      if throwAt .computeCidStep then (db, .error (.stepThrew .computeCidStep)) else
      let cid := computeCid a.payload
      if throwAt .issueVcStep then (db, .error (.stepThrew .issueVcStep)) else
      let issued := issueVerifiableCredential cid a.userId a.batchUuid a.issueTimestamp a.vcUuid
      let vcDigest := issued.vcDigest
      if throwAt .appendLogStep then (db, .error (.stepThrew .appendLogStep)) else
      let db1 := { db with log := (appendToTransparencyLog db.log vcDigest cid a.logTimestamp).1 }
      if throwAt .addBatchStep then (db1, .error (.stepThrew .addBatchStep)) else
      let finalBatch : BatchRec :=
        { id := a.batchUuid, farmerId := a.userId, consumerCode := consumerCode,
          cid := cid, vcDigest := vcDigest }
      let db2 := { db1 with batches := db1.batches ++ [finalBatch] }
      if throwAt .addClaimsStep then (db2, .error (.stepThrew .addClaimsStep)) else
      let db3 := { db2 with claims := db2.claims ++ a.claimsPayload }
      if throwAt .addCodeMappingStep then (db3, .error (.stepThrew .addCodeMappingStep)) else
      let db4 := { db3 with codes := addCodeMapping db3.codes consumerCode cid vcDigest a.batchUuid }
      (db4, .ok consumerCode)

/-! ## Derived definitions used by the statements -/

/-- Sequentially append a list of `(vcDigest, cid, timestamp)` triples. -/
def appendAll (log : List LogEntry) : List (String × String × String) → List LogEntry
  | [] => log
  | (d, c, t) :: rest => appendAll (appendToTransparencyLog log d c t).1 rest

/-- The chain invariant from position `n` with expected previous hash
`prev`: indices are consecutive and each `previousHash` links to the
predecessor's digest. -/
def chainOk : Option String → Nat → List LogEntry → Bool
  | _, _, [] => true
  | prev, n, e :: rest =>
    e.index == n && e.previousHash == prev && chainOk (some e.digest) (n + 1) rest

/-- The digest of the last entry, or `prev` for the empty log (the expected
`previousHash` of the next appended entry). -/
def lastD : Option String → List LogEntry → Option String
  | prev, [] => prev
  | _, e :: rest => lastD (some e.digest) rest

/-- Is one of the three guarded credential fields absent (`undefined`)? -/
def anyGuardFieldAbsent (v : JsVal) : Bool :=
  isUndefined (optF (optF v "proof") "signatureValue")
    || isUndefined (optF (optF v "proof") "created")
    || isUndefined (optF v "issuer")

/-- The source's falsiness guard itself. -/
def guardTriggers (v : JsVal) : Bool :=
  !truthy (optF (optF v "proof") "signatureValue")
    || !truthy (optF (optF v "proof") "created")
    || !truthy (optF v "issuer")

/-- Is `credentialSubject` present (member access on it cannot throw)? -/
def subjectPresent (v : JsVal) : Bool := !isNullish (optF v "credentialSubject")

/-! ## Helper lemmas -/

set_option maxRecDepth 100000

/-- `hexDigits` produces exactly `k` characters. -/
theorem hexDigits_length (k n : Nat) : (hexDigits k n).length = k := by
  induction k generalizing n with
  | zero => rfl
  | succ k ih => simp [hexDigits, ih]

/-- A SHA-256 hex digest has 64 characters. -/
theorem sha256_length (s : String) : (sha256 s).length = 64 := by
  simp [sha256, String.length, hexDigits_length]

/-- A SHA-256 hex digest is never the empty string. -/
theorem sha256_ne_empty (s : String) : sha256 s ≠ "" := by
  intro h
  have := congrArg String.length h
  rw [sha256_length] at this
  simp at this

/-- The issuer DID `did:agritrust:<farmerId>` is never the empty string. -/
theorem didPrefixed_ne_empty (f : String) : ("did:agritrust:" ++ f) ≠ "" := by
  intro h
  have := congrArg String.length h
  rw [String.length_append] at this
  simp at this
  exact absurd this.1 (by decide)

/-- A nonempty string is truthy. -/
theorem truthy_str_of_ne {s : String} (h : s ≠ "") : truthy (.str s) = true := by
  simp [truthy, h]

/-- `isUndefined` characterization. -/
theorem isUndefined_iff (v : JsVal) : isUndefined v = true ↔ v = .undefined := by
  cases v <;> simp [isUndefined]

/-- Member access on a non-nullish value never throws and agrees with
optional chaining. -/
theorem getF_of_not_nullish {v : JsVal} (h : isNullish v = false) (k : String) :
    getF v k = .ok (optF v k) := by
  cases v <;> simp_all [isNullish, getF, optF]

/-- Member access on a nullish value throws. -/
theorem getF_of_nullish {v : JsVal} (h : isNullish v = true) (k : String) :
    getF v k = .error "TypeError" := by
  cases v <;> simp_all [isNullish, getF]

/-- A truthy optional-chain result means the accessed value was not
nullish. -/
theorem not_nullish_of_optF_truthy {v : JsVal} {k : String}
    (h : truthy (optF v k) = true) : isNullish v = false := by
  cases v <;> simp_all [optF, truthy, isNullish]

/-- When the source's falsiness guard fires, `validateVcSignature` returns
`false` without evaluating anything else. -/
theorem validate_of_guard {v : JsVal} (h : guardTriggers v = true) :
    validateVcSignature v = .ok false := by
  unfold guardTriggers at h
  unfold validateVcSignature
  rw [if_pos h]

/-- An absent guarded field makes the guard fire. -/
theorem guard_of_absent {v : JsVal} (h : anyGuardFieldAbsent v = true) :
    guardTriggers v = true := by
  unfold anyGuardFieldAbsent at h
  unfold guardTriggers
  rcases Bool.or_eq_true_iff.mp h with h' | h'
  · rcases Bool.or_eq_true_iff.mp h' with h'' | h''
    · rw [(isUndefined_iff _).mp h'']
      simp [truthy]
    · rw [(isUndefined_iff _).mp h'']
      simp [truthy]
  · rw [(isUndefined_iff _).mp h']
    simp [truthy]

/-- Past the guard, a present (non-nullish) `credentialSubject` means the
whole evaluation returns a boolean. -/
theorem validate_isOk_of_subjectPresent {v : JsVal}
    (hg : guardTriggers v = false) (hs : subjectPresent v = true) :
    (validateVcSignature v).isOk = true := by
  unfold guardTriggers at hg
  simp only [Bool.or_eq_false_iff, Bool.not_eq_false'] at hg
  obtain ⟨⟨hsig, hcre⟩, hiss⟩ := hg
  have hv : isNullish v = false := not_nullish_of_optF_truthy hiss
  have hproof : isNullish (optF v "proof") = false := not_nullish_of_optF_truthy hsig
  have hsubj : isNullish (optF v "credentialSubject") = false := by
    simpa [subjectPresent] using hs
  unfold validateVcSignature
  rw [if_neg (by simp [hsig, hcre, hiss])]
  simp [getF_of_not_nullish, hv, hproof, hsubj, Except.isOk, Except.bind, bind,
    Except.toBool, pure, Except.pure]

/-- Past the guard, a nullish `credentialSubject` makes the unguarded
`vcObject.credentialSubject.cid` access throw. -/
theorem validate_error_of_subjectAbsent {v : JsVal}
    (hg : guardTriggers v = false) (hs : subjectPresent v = false) :
    validateVcSignature v = .error "TypeError" := by
  unfold guardTriggers at hg
  simp only [Bool.or_eq_false_iff, Bool.not_eq_false'] at hg
  obtain ⟨⟨hsig, hcre⟩, hiss⟩ := hg
  have hv : isNullish v = false := not_nullish_of_optF_truthy hiss
  have hsubj : isNullish (optF v "credentialSubject") = true := by
    simpa [subjectPresent] using hs
  unfold validateVcSignature
  rw [if_neg (by simp [hsig, hcre, hiss])]
  simp [getF_of_not_nullish, hv, getF_of_nullish, hsubj, Except.bind, bind]

/-- Sanity check of the SHA-256 embedding against the FIPS 180-2 test
vector for `"abc"`. -/
theorem sha256_test_vector_abc :
    sha256 "abc" = "ba7816bf8f01cfea414140de5dae2223b00361a396177a9cb410ff61f20015ad" := by
  decide

/-- Sanity check of the SHA-256 embedding on the empty message. -/
theorem sha256_test_vector_empty :
    sha256 "" = "e3b0c44298fc1c149afbf4c8996fb92427ae41e4649b934ca495991b7852b855" := by
  decide

/-- Sanity check: a fully successful submission returns its consumer
code. -/
theorem handleFinalSubmit_success_example :
    (handleFinalSubmit ⟨[⟨"f1", "Alice"⟩], [], [], [], []⟩
        ⟨"f1", ["AGRITRUST-240101-1234"], "b1", "u1", "t1", "t2", .obj [], []⟩
        (fun _ => false)).2 = .ok "AGRITRUST-240101-1234" := by rfl

/-! ## Claim C1: round-trip verification of a freshly issued credential -/

/-- Claim C1: for every content digest `cid`, farmer identifier `farmerId`
and batch identifier `batchId`, and for whatever timestamp is captured at
issuance (a `toISOString()` result, hence nonempty) and whatever uuid is
drawn, `validateVcSignature` applied to the credential object returned by
`issueVerifiableCredential cid farmerId batchId` returns `true`. -/
theorem c1_round_trip_verification (cid farmerId batchId timestamp uuid : String)
    (ht : timestamp ≠ "") :
    validateVcSignature
      (issueVerifiableCredential cid farmerId batchId timestamp uuid).vcObject = .ok true := by
  have hsig := truthy_str_of_ne (sha256_ne_empty
    (cid ++ "-" ++ timestamp ++ "-" ++ ("did:agritrust:" ++ farmerId) ++ "-" ++ batchId ++
      "-secret-key"))
  have ht' := truthy_str_of_ne ht
  have hiss := truthy_str_of_ne (didPrefixed_ne_empty farmerId)
  simp [issueVerifiableCredential, validateVcSignature, optF, getF, lookupField, hsig, ht', hiss,
    jsToString, strictEqStr, Except.bind, bind, pure, Except.pure]

/-- Witness for C1 at concrete inputs. -/
theorem c1_round_trip_verification_witness :
    ("2024-01-01T00:00:00.000Z" : String) ≠ "" ∧
      validateVcSignature
        (issueVerifiableCredential "cid1" "farmer1" "batch1"
          "2024-01-01T00:00:00.000Z" "uuid1").vcObject = .ok true :=
  ⟨by decide, c1_round_trip_verification "cid1" "farmer1" "batch1"
    "2024-01-01T00:00:00.000Z" "uuid1" (by decide)⟩

/-! ## Claim C9: code-mapping put/get round trip -/

/-- Unfolding `getCodeMapping` one stored entry at a time. -/
theorem getCodeMapping_cons (k : String) (v : CodeMapping) (t : CodeStore) (q : String) :
    getCodeMapping ((k, v) :: t) q = if k == q then some v else getCodeMapping t q := by
  by_cases h : k == q <;> simp [getCodeMapping, List.find?, h]

/-- Claim C9: immediately after `addCodeMapping c cid vcDigest batchId`,
`getCodeMapping c` returns exactly `{cid, vcDigest, batchId}`, and for every
other code `c' ≠ c` the result of `getCodeMapping c'` is unchanged. -/
theorem c9_code_mapping_round_trip (codes : CodeStore) (c cid vcDigest batchId : String) :
    getCodeMapping (addCodeMapping codes c cid vcDigest batchId) c =
        some ⟨cid, vcDigest, batchId⟩ ∧
      ∀ c', c' ≠ c →
        getCodeMapping (addCodeMapping codes c cid vcDigest batchId) c' =
          getCodeMapping codes c' := by
  induction codes with
  | nil =>
    refine ⟨by simp [addCodeMapping, getCodeMapping, List.find?], ?_⟩
    intro c' h
    simp [addCodeMapping, getCodeMapping, List.find?, beq_eq_false_iff_ne.mpr (Ne.symm h)]
  | cons kv rest ih =>
    obtain ⟨k, v⟩ := kv
    by_cases hk : k = c
    · subst hk
      rw [addCodeMapping, if_pos (by simp)]
      refine ⟨by simp [getCodeMapping_cons], ?_⟩
      intro c' h
      have hne := beq_eq_false_iff_ne.mpr (Ne.symm h)
      rw [getCodeMapping_cons, getCodeMapping_cons, if_neg (by simp [hne]), if_neg (by simp [hne])]
    · have hk' : (k == c) = false := beq_eq_false_iff_ne.mpr hk
      rw [addCodeMapping]
      rw [if_neg (by simp [hk'])]
      refine ⟨?_, ?_⟩
      · rw [getCodeMapping_cons, if_neg (by simp [hk'])]
        exact ih.1
      · intro c' h
        by_cases hq : k = c'
        · subst hq
          rw [getCodeMapping_cons, getCodeMapping_cons, if_pos (by simp), if_pos (by simp)]
        · have hq' : (k == c') = false := beq_eq_false_iff_ne.mpr hq
          rw [getCodeMapping_cons, getCodeMapping_cons, if_neg (by simp [hq']),
            if_neg (by simp [hq'])]
          exact ih.2 c' h

/-- Witness for C9 at a concrete store. -/
theorem c9_code_mapping_round_trip_witness :
    getCodeMapping
        (addCodeMapping [("OLD", ⟨"c0", "d0", "b0"⟩)] "NEW" "c1" "d1" "b1") "NEW" =
        some ⟨"c1", "d1", "b1"⟩ ∧
      ("OLD" : String) ≠ "NEW" ∧
      getCodeMapping
          (addCodeMapping [("OLD", ⟨"c0", "d0", "b0"⟩)] "NEW" "c1" "d1" "b1") "OLD" =
        getCodeMapping [("OLD", ⟨"c0", "d0", "b0"⟩)] "OLD" :=
  ⟨(c9_code_mapping_round_trip [("OLD", ⟨"c0", "d0", "b0"⟩)] "NEW" "c1" "d1" "b1").1,
   by decide,
   (c9_code_mapping_round_trip [("OLD", ⟨"c0", "d0", "b0"⟩)] "NEW" "c1" "d1" "b1").2
     "OLD" (by decide)⟩

/-! ## Claim C2: the transparency log is append-only and hash-chained -/

/-- The source's `previousHash` computation (`log.length > 0 ?
log[log.length - 1].digest : null`) agrees with `lastD` seeded with
`none`. -/
theorem getLast_digest_eq_lastD (log : List LogEntry) :
    (log.getLast?).map (fun e => e.digest) = lastD none log := by
  induction log with
  | nil => rfl
  | cons e rest ih =>
    cases rest with
    | nil => rfl
    | cons x xs =>
      rw [List.getLast?_cons_cons]
      exact ih

/-- The chain invariant over a snoc: the appended entry must carry the next
index and the digest of the previously last entry. -/
theorem chainOk_snoc (prev : Option String) (n : Nat) (log : List LogEntry) (e : LogEntry) :
    chainOk prev n (log ++ [e]) = true ↔
      (chainOk prev n log = true ∧ e.index = n + log.length ∧ e.previousHash = lastD prev log) := by
  induction log generalizing prev n with
  | nil => simp [chainOk, lastD, Bool.and_eq_true, beq_iff_eq, and_comm]
  | cons x xs ih =>
    constructor
    · intro h
      simp only [List.cons_append, chainOk, Bool.and_eq_true, beq_iff_eq] at h
      obtain ⟨⟨h1, h2⟩, h3⟩ := h
      obtain ⟨h4, h5, h6⟩ := (ih _ _).mp h3
      refine ⟨?_, ?_, h6⟩
      · simp only [chainOk, Bool.and_eq_true, beq_iff_eq]
        exact ⟨⟨h1, h2⟩, h4⟩
      · simp only [List.length_cons]
        omega
    · rintro ⟨hc, hidx, hprev⟩
      simp only [chainOk, Bool.and_eq_true, beq_iff_eq] at hc
      obtain ⟨⟨h1, h2⟩, h3⟩ := hc
      simp only [List.cons_append, chainOk, Bool.and_eq_true, beq_iff_eq]
      refine ⟨⟨h1, h2⟩, (ih _ _).mpr ⟨h3, ?_, hprev⟩⟩
      simp only [List.length_cons] at hidx
      omega

/-- Sequential appends starting from a chain-correct log keep the chain
correct and grow the length by one per append. -/
theorem appendAll_chainOk (inputs : List (String × String × String)) :
    ∀ log : List LogEntry, chainOk none 0 log = true →
      chainOk none 0 (appendAll log inputs) = true ∧
        (appendAll log inputs).length = log.length + inputs.length := by
  induction inputs with
  | nil => intro log h; simpa [appendAll] using h
  | cons i rest ih =>
    obtain ⟨d, c, t⟩ := i
    intro log h
    have hstep : chainOk none 0 (appendToTransparencyLog log d c t).1 = true := by
      rw [appendToTransparencyLog]
      exact (chainOk_snoc none 0 log _).mpr
        ⟨h, by simp, by simpa using getLast_digest_eq_lastD log⟩
    have hmain := ih (appendToTransparencyLog log d c t).1 hstep
    have hdef : appendAll log ((d, c, t) :: rest) =
        appendAll (appendToTransparencyLog log d c t).1 rest := rfl
    refine ⟨by rw [hdef]; exact hmain.1, ?_⟩
    rw [hdef, hmain.2]
    simp only [appendToTransparencyLog, List.length_append, List.length_cons]
    simp
    omega

/-- Position-wise consequences of the chain invariant. -/
theorem chainOk_get (log : List LogEntry) (prev : Option String) (n : Nat)
    (h : chainOk prev n log = true) :
    ∀ i (hi : i < log.length),
      (log.get ⟨i, hi⟩).index = n + i ∧
        (log.get ⟨i, hi⟩).previousHash =
          (if i = 0 then prev
           else some ((log.get ⟨i - 1, Nat.lt_of_le_of_lt (Nat.sub_le i 1) hi⟩).digest)) := by
  induction log generalizing prev n with
  | nil => intro i hi; exact absurd hi (by simp)
  | cons e rest ih =>
    simp only [chainOk, Bool.and_eq_true, beq_iff_eq] at h
    obtain ⟨⟨h1, h2⟩, h3⟩ := h
    intro i hi
    cases i with
    | zero => exact ⟨by simpa using h1, by simpa using h2⟩
    | succ j =>
      have hj : j < rest.length := by simpa using hi
      have hih := ih (some e.digest) (n + 1) h3 j hj
      cases j with
      | zero =>
        refine ⟨?_, ?_⟩
        · have := hih.1
          simp only [List.get_cons_succ]
          omega
        · simpa using hih.2
      | succ k =>
        refine ⟨?_, ?_⟩
        · have := hih.1
          simp only [List.get_cons_succ]
          omega
        · have h4 := hih.2
          simp only [Nat.succ_ne_zero, if_false] at h4 ⊢
          simpa using h4

/-- Claim C2: each `appendToTransparencyLog` call reads the current length
`n`, appends exactly one entry with `index = n` and `previousHash` equal to
the previous entry's digest (`none` when the log was empty), returns `n`,
and leaves every existing entry unchanged (the new log is the old log plus
one entry); consequently, after `N` sequential appends from the empty log,
`log[i].index = i` for every `i`, `log[0].previousHash = none`, and
`log[i].previousHash = some log[i-1].digest` for every `i > 0`. -/
theorem c2_transparency_log_append_chain :
    (∀ (log : List LogEntry) (d c t : String),
        appendToTransparencyLog log d c t =
          (log ++ [{ index := log.length, digest := d,
                     previousHash := (log.getLast?).map (fun e => e.digest),
                     timestamp := t, cid := c }], log.length)) ∧
      ∀ inputs : List (String × String × String),
        (appendAll [] inputs).length = inputs.length ∧
          (∀ i (hi : i < (appendAll [] inputs).length),
            ((appendAll [] inputs).get ⟨i, hi⟩).index = i) ∧
          (∀ h0 : 0 < (appendAll [] inputs).length,
            ((appendAll [] inputs).get ⟨0, h0⟩).previousHash = none) ∧
          ∀ i (hi : i < (appendAll [] inputs).length), 0 < i →
            ((appendAll [] inputs).get ⟨i, hi⟩).previousHash =
              some (((appendAll [] inputs).get
                ⟨i - 1, Nat.lt_of_le_of_lt (Nat.sub_le i 1) hi⟩).digest) := by
  refine ⟨fun log d c t => rfl, fun inputs => ?_⟩
  obtain ⟨hchain, hlen⟩ := appendAll_chainOk inputs [] rfl
  refine ⟨by simpa using hlen, ?_, ?_, ?_⟩
  · intro i hi
    simpa using (chainOk_get _ none 0 hchain i hi).1
  · intro h0
    simpa using (chainOk_get _ none 0 hchain 0 h0).2
  · intro i hi hpos
    have := (chainOk_get _ none 0 hchain i hi).2
    rw [if_neg (by omega)] at this
    exact this

/-- Witness for C2 on a concrete two-append run. -/
theorem c2_transparency_log_append_chain_witness :
    (appendAll [] [("d1", "c1", "t1"), ("d2", "c2", "t2")]).length = 2 ∧
      ((appendAll [] [("d1", "c1", "t1"), ("d2", "c2", "t2")]).get ⟨0, by decide⟩).previousHash
        = none ∧
      ((appendAll [] [("d1", "c1", "t1"), ("d2", "c2", "t2")]).get ⟨1, by decide⟩).previousHash
        = some "d1" ∧
      ((appendAll [] [("d1", "c1", "t1"), ("d2", "c2", "t2")]).get ⟨1, by decide⟩).index = 1 := by
  have h := c2_transparency_log_append_chain
  refine ⟨(h.2 _).1, (h.2 _).2.2.1 (by decide), ?_, (h.2 _).2.1 1 (by decide)⟩
  have := (h.2 [("d1", "c1", "t1"), ("d2", "c2", "t2")]).2.2.2 1 (by decide) (by decide)
  simpa using this

/-! ## Claim C4: transparency-log lookup correctness -/

/-- Claim C4: `checkTransparencyLog vcDigest expectedCid` returns
`{exists := true, consistent := true}` iff the first entry in scan order
whose digest equals `vcDigest` exists and its stored cid equals
`expectedCid`; it returns `{exists := false, consistent := false}` iff no
entry with that digest exists; duplicate digests are possible, and the
lookup uses the first matching entry in scan order (third conjunct). -/
theorem c4_log_lookup_correctness (log : List LogEntry) (vcDigest expectedCid : String) :
    (checkTransparencyLog log vcDigest expectedCid = ⟨true, true⟩ ↔
        ∃ e, log.find? (fun e => e.digest == vcDigest) = some e ∧ e.cid = expectedCid) ∧
      (checkTransparencyLog log vcDigest expectedCid = ⟨false, false⟩ ↔
        ∀ e ∈ log, e.digest ≠ vcDigest) ∧
      ∀ l1 e l2, log = l1 ++ e :: l2 → e.digest = vcDigest →
        (∀ x ∈ l1, x.digest ≠ vcDigest) →
        checkTransparencyLog log vcDigest expectedCid =
          if e.cid = expectedCid then ⟨true, true⟩ else ⟨true, false⟩ := by
  refine ⟨?_, ?_, ?_⟩
  · cases h : log.find? (fun e => e.digest == vcDigest) with
    | none => simp [checkTransparencyLog, h, TlCheck.mk.injEq]
    | some e =>
      by_cases hc : e.cid = expectedCid
      · simp [checkTransparencyLog, h, hc, TlCheck.mk.injEq]
      · simp [checkTransparencyLog, h, hc, TlCheck.mk.injEq, bne_iff_ne]
  · cases h : log.find? (fun e => e.digest == vcDigest) with
    | none =>
      simp only [checkTransparencyLog, h]
      constructor
      · intro _ e he
        have := List.find?_eq_none.mp h e he
        simpa using this
      · intro _
        trivial
    | some e =>
      have hmem := List.mem_of_find?_eq_some h
      have hdig : e.digest = vcDigest := by simpa using List.find?_some h
      simp only [checkTransparencyLog, h]
      constructor
      · intro hfalse
        by_cases hc : e.cid ≠ expectedCid <;> simp [hc, TlCheck.mk.injEq] at hfalse
      · intro hall
        exact absurd hdig (hall e hmem)
  · rintro l1 e l2 rfl hdig hfirst
    have h1 : l1.find? (fun e => e.digest == vcDigest) = none :=
      List.find?_eq_none.mpr (fun x hx => by simpa using hfirst x hx)
    have h2 : (e :: l2).find? (fun e => e.digest == vcDigest) = some e :=
      List.find?_cons_of_pos _ (by simpa using hdig)
    have hf : (l1 ++ e :: l2).find? (fun e => e.digest == vcDigest) = some e := by
      rw [List.find?_append, h1, h2]
      rfl
    by_cases hc : e.cid = expectedCid
    · simp [checkTransparencyLog, hf, hc]
    · simp [checkTransparencyLog, hf, hc, bne_iff_ne]

/-- Witness for C4 on a concrete log with a duplicate digest: the lookup
uses the first match, and a missing digest reports `{false, false}`. -/
theorem c4_log_lookup_correctness_witness :
    checkTransparencyLog
        [⟨0, "dX", none, "t0", "cidX"⟩, ⟨1, "dX", some "dX", "t1", "cidY"⟩] "dX" "cidY" =
        ⟨true, false⟩ ∧
      checkTransparencyLog
          [⟨0, "dX", none, "t0", "cidX"⟩, ⟨1, "dX", some "dX", "t1", "cidY"⟩] "dZ" "cidX" =
        ⟨false, false⟩ := by
  constructor
  · have := (c4_log_lookup_correctness
      [⟨0, "dX", none, "t0", "cidX"⟩, ⟨1, "dX", some "dX", "t1", "cidY"⟩] "dX" "cidY").2.2
      [] ⟨0, "dX", none, "t0", "cidX"⟩ [⟨1, "dX", some "dX", "t1", "cidY"⟩] rfl rfl (by simp)
    simpa using this
  · exact (c4_log_lookup_correctness
      [⟨0, "dX", none, "t0", "cidX"⟩, ⟨1, "dX", some "dX", "t1", "cidY"⟩] "dZ" "cidX").2.1.mpr
      (by decide)

/-! ## Claims C7 and C8: aborted submissions leave no partial commit -/

/-- A code returned by the uniqueness loop is not yet mapped. -/
theorem generateUniqueCode_fresh :
    ∀ (cands : List String) (codes : CodeStore) (c : String),
      generateUniqueCode codes cands = some c → getCodeMapping codes c = none := by
  intro cands
  induction cands with
  | nil => intro codes c h; simp [generateUniqueCode] at h
  | cons x xs ih =>
    intro codes c h
    by_cases hx : (getCodeMapping codes x).isNone
    · rw [generateUniqueCode, if_pos hx] at h
      obtain rfl : x = c := by injection h
      exact Option.isNone_iff_eq_none.mp hx
    · rw [generateUniqueCode, if_neg hx] at h
      exact ih codes c h

/-- Every abort path of the workflow leaves the codes collection untouched
(the code mapping is the last durable write). -/
theorem handleFinalSubmit_codes_or_ok (db : Db) (a : SubmitArgs) (throwAt : SubmitStep → Bool) :
    (handleFinalSubmit db a throwAt).1.codes = db.codes ∨
      ∃ c, (handleFinalSubmit db a throwAt).2 = .ok c := by
  unfold handleFinalSubmit
  cases generateUniqueCode db.codes (a.codeCandidates.take 100) with
  | none => left; rfl
  | some code =>
    cases getFarmerById db.farmers a.userId with
    | none => left; rfl
    | some farmer =>
      by_cases h1 : throwAt .computeCidStep
      · left; simp [h1]
      by_cases h2 : throwAt .issueVcStep
      · left; simp [h1, h2]
      by_cases h3 : throwAt .appendLogStep
      · left; simp [h1, h2, h3]
      by_cases h4 : throwAt .addBatchStep
      · left; simp [h1, h2, h3, h4]
      by_cases h5 : throwAt .addClaimsStep
      · left; simp [h1, h2, h3, h4, h5]
      by_cases h6 : throwAt .addCodeMappingStep
      · left; simp [h1, h2, h3, h4, h5, h6]
      right
      exact ⟨code, by simp [h1, h2, h3, h4, h5, h6]⟩

/-- Claim C7: when the submission workflow aborts at any step before the
code mapping is written (the only paths that produce an error), the
consumer-facing index is untouched, and in particular the would-be consumer
code still resolves to not-found. -/
theorem c7_no_partial_commit (db : Db) (a : SubmitArgs) (throwAt : SubmitStep → Bool)
    (err : SubmitError) (h : (handleFinalSubmit db a throwAt).2 = .error err) :
    (handleFinalSubmit db a throwAt).1.codes = db.codes ∧
      ∀ c, generateUniqueCode db.codes (a.codeCandidates.take 100) = some c →
        getCodeMapping (handleFinalSubmit db a throwAt).1.codes c = none := by
  rcases handleFinalSubmit_codes_or_ok db a throwAt with hcodes | ⟨c, hok⟩
  · refine ⟨hcodes, ?_⟩
    intro c hc
    rw [hcodes]
    exact generateUniqueCode_fresh _ _ _ hc
  · rw [hok] at h
    exact Except.noConfusion h

/-- Witness for C7: a submission that throws at the log-append step leaves
the code index empty and the generated code unmapped. -/
theorem c7_no_partial_commit_witness :
    ((handleFinalSubmit ⟨[⟨"f1", "Alice"⟩], [], [], [], []⟩
        ⟨"f1", ["CODE-1"], "b1", "u1", "t1", "t2", .obj [], []⟩
        (fun s => s == .appendLogStep)).2 = .error (.stepThrew .appendLogStep)) ∧
      (handleFinalSubmit ⟨[⟨"f1", "Alice"⟩], [], [], [], []⟩
        ⟨"f1", ["CODE-1"], "b1", "u1", "t1", "t2", .obj [], []⟩
        (fun s => s == .appendLogStep)).1.codes = [] ∧
      getCodeMapping
        (handleFinalSubmit ⟨[⟨"f1", "Alice"⟩], [], [], [], []⟩
          ⟨"f1", ["CODE-1"], "b1", "u1", "t1", "t2", .obj [], []⟩
          (fun s => s == .appendLogStep)).1.codes "CODE-1" = none := by
  have h := c7_no_partial_commit ⟨[⟨"f1", "Alice"⟩], [], [], [], []⟩
    ⟨"f1", ["CODE-1"], "b1", "u1", "t1", "t2", .obj [], []⟩
    (fun s => s == .appendLogStep) (.stepThrew .appendLogStep) (by rfl)
  exact ⟨by rfl, h.1, h.2 "CODE-1" (by rfl)⟩

/-- Claim C8: when the uniqueness retry budget (at most 100 candidates) is
exhausted, the workflow raises the code-generation-exhausted error and
returns the database entirely unchanged — the code is generated before any
durable write. -/
theorem c8_exhausted_no_writes (db : Db) (a : SubmitArgs) (throwAt : SubmitStep → Bool)
    (h : generateUniqueCode db.codes (a.codeCandidates.take 100) = none) :
    handleFinalSubmit db a throwAt = (db, .error .codeGenerationExhausted) := by
  unfold handleFinalSubmit
  rw [h]

/-- Witness for C8: every drawn candidate already collides, so nothing is
written and the exhausted error surfaces. -/
theorem c8_exhausted_no_writes_witness :
    generateUniqueCode [("AGRITRUST-251011-1111", ⟨"c0", "d0", "b0"⟩)]
        (["AGRITRUST-251011-1111"].take 100) = none ∧
      handleFinalSubmit ⟨[⟨"f1", "Alice"⟩], [], [], [("AGRITRUST-251011-1111", ⟨"c0", "d0", "b0"⟩)], []⟩
          ⟨"f1", ["AGRITRUST-251011-1111"], "b1", "u1", "t1", "t2", .obj [], []⟩ (fun _ => false) =
        (⟨[⟨"f1", "Alice"⟩], [], [], [("AGRITRUST-251011-1111", ⟨"c0", "d0", "b0"⟩)], []⟩,
          .error .codeGenerationExhausted) :=
  ⟨rfl, c8_exhausted_no_writes
    ⟨[⟨"f1", "Alice"⟩], [], [], [("AGRITRUST-251011-1111", ⟨"c0", "d0", "b0"⟩)], []⟩
    ⟨"f1", ["AGRITRUST-251011-1111"], "b1", "u1", "t1", "t2", .obj [], []⟩ (fun _ => false) rfl⟩

/-! ## Claim C10: access safety of `validateVcSignature` -/

/-- Claim C10: `validateVcSignature` returns a boolean without any failing
field access whenever a guarded field is absent (the guard returns `false`)
or `credentialSubject` is present; and past the guard the unguarded
`credentialSubject.cid` / `.batchId` dereference throws exactly when
`credentialSubject` is nullish, so its presence is the precondition making
the error branch unreachable. -/
theorem c10_validate_access_safety (v : JsVal) :
    (anyGuardFieldAbsent v = true → validateVcSignature v = .ok false) ∧
      (subjectPresent v = true → (validateVcSignature v).isOk = true) ∧
      (guardTriggers v = false → subjectPresent v = false →
        validateVcSignature v = .error "TypeError") := by
  refine ⟨fun h => validate_of_guard (guard_of_absent h), fun h => ?_,
    fun hg hs => validate_error_of_subjectAbsent hg hs⟩
  by_cases hg : guardTriggers v
  · rw [validate_of_guard hg]
    rfl
  · exact validate_isOk_of_subjectPresent (by simpa using hg) h

/-- Witness for C10 on three concrete credential objects. -/
theorem c10_validate_access_safety_witness :
    anyGuardFieldAbsent (.obj []) = true ∧
      validateVcSignature (.obj []) = .ok false ∧
      subjectPresent (.obj [("issuer", .str "i"), ("credentialSubject", .obj []),
        ("proof", .obj [("signatureValue", .str "s"), ("created", .str "t")])]) = true ∧
      (validateVcSignature (.obj [("issuer", .str "i"), ("credentialSubject", .obj []),
        ("proof", .obj [("signatureValue", .str "s"), ("created", .str "t")])])).isOk = true ∧
      guardTriggers (.obj [("issuer", .str "i"),
        ("proof", .obj [("signatureValue", .str "s"), ("created", .str "t")])]) = false ∧
      subjectPresent (.obj [("issuer", .str "i"),
        ("proof", .obj [("signatureValue", .str "s"), ("created", .str "t")])]) = false ∧
      validateVcSignature (.obj [("issuer", .str "i"),
        ("proof", .obj [("signatureValue", .str "s"), ("created", .str "t")])]) =
        .error "TypeError" :=
  ⟨rfl, (c10_validate_access_safety (.obj [])).1 rfl, rfl,
    (c10_validate_access_safety _).2.1 rfl, rfl, rfl,
    (c10_validate_access_safety _).2.2 rfl rfl⟩

/-! ## Claim C6: `validateVcSignature` fails closed

The claim's first half holds: an absent guarded field yields `false`.  Its
"never throws on any input" half is false: with all three guarded fields
present but `credentialSubject` absent, the unguarded
`vcObject.credentialSubject.cid` access throws a `TypeError`. -/

/-- Counterexample to C6 as stated: a credential object with
`proof.signatureValue`, `proof.created` and `issuer` all present but no
`credentialSubject` makes `validateVcSignature` throw rather than return a
boolean. -/
theorem c6_counterexample_throws :
    validateVcSignature (.obj [("issuer", .str "did:agritrust:f1"),
        ("proof", .obj [("signatureValue", .str "sig"), ("created", .str "ts")])]) =
      .error "TypeError" := by rfl

/-- Claim C6 as amended: `validateVcSignature` returns `false` whenever
`proof.signatureValue`, `proof.created` or `issuer` is absent, and it does
not throw on any input in which a guarded field is absent or
`credentialSubject` is present — but not on arbitrary inputs. -/
theorem c6_fails_closed_amended (v : JsVal) :
    (anyGuardFieldAbsent v = true → validateVcSignature v = .ok false) ∧
      ((anyGuardFieldAbsent v = true ∨ subjectPresent v = true) →
        (validateVcSignature v).isOk = true) := by
  refine ⟨fun h => validate_of_guard (guard_of_absent h), fun h => ?_⟩
  rcases h with h | h
  · rw [validate_of_guard (guard_of_absent h)]
    rfl
  · by_cases hg : guardTriggers v
    · rw [validate_of_guard hg]
      rfl
    · exact validate_isOk_of_subjectPresent (by simpa using hg) h

/-- Witness for the amended C6: `proof.signatureValue` absent forces
`false` without a throw. -/
theorem c6_fails_closed_amended_witness :
    anyGuardFieldAbsent (.obj [("proof", .obj [("created", .str "ts")])]) = true ∧
      validateVcSignature (.obj [("proof", .obj [("created", .str "ts")])]) = .ok false :=
  ⟨rfl, (c6_fails_closed_amended _).1 rfl⟩

/-! ## Claim C5: digests and object-key order

`computeCid` hashes `JSON.stringify(data)` with no canonicalization, so two
payloads holding the same fields with the same values in a different key
order — a permutation of the field list — produce different digests.  The
spec itself calls the missing canonicalization a latent bug in the
reference mock, so the code, not the claim, is at fault. -/

/-- Code-bug evidence for C5: `{a:1, b:2}` and `{b:2, a:1}` carry the same
fields (the field lists are permutations of each other) yet `computeCid`
gives them different digests. -/
theorem c5_computeCid_key_order_dependent :
    List.Perm [("a", JsVal.num 1), ("b", JsVal.num 2)] [("b", JsVal.num 2), ("a", JsVal.num 1)] ∧
      computeCid (.obj [("a", .num 1), ("b", .num 2)]) ≠
        computeCid (.obj [("b", .num 2), ("a", .num 1)]) := by
  constructor
  · exact List.Perm.swap _ _ _
  · decide

/-! ## Claim C3: issuance determinism

`issueVerifiableCredential` draws a fresh `uuidv4()` for the credential's
`id` in addition to capturing a timestamp, so two issuances with identical
inputs and identical timestamps still differ byte-for-byte (and in
`vcDigest`) whenever the uuids differ; the credential is only re-derivable
from `{cid, farmerId, batchId}` plus the timestamp *and* the uuid. -/

/-- Counterexample to C3 as stated: same `{cid, farmerId, batchId}` and the
same captured timestamp, but two different uuid draws, give credential
objects that differ byte-for-byte and have different `vcDigest` values. -/
theorem c3_counterexample_uuid_nondeterminism :
    jsonStringify (issueVerifiableCredential "cid1" "f1" "b1"
          "2024-01-01T00:00:00.000Z" "u1").vcObject ≠
        jsonStringify (issueVerifiableCredential "cid1" "f1" "b1"
          "2024-01-01T00:00:00.000Z" "u2").vcObject ∧
      (issueVerifiableCredential "cid1" "f1" "b1"
          "2024-01-01T00:00:00.000Z" "u1").vcDigest ≠
        (issueVerifiableCredential "cid1" "f1" "b1"
          "2024-01-01T00:00:00.000Z" "u2").vcDigest := by
  constructor
  · decide
  · decide

/-- Claim C3 as amended: for fixed inputs, a fixed captured timestamp *and
a fixed uuid draw*, issuance is deterministic — equal inputs give
byte-for-byte identical credential objects and identical digests, so the
credential is re-derivable from `{cid, farmerId, batchId}` plus the
timestamp and the uuid. -/
theorem c3_deterministic_given_timestamp_and_uuid
    (cid farmerId batchId t u cid' farmerId' batchId' t' u' : String)
    (h1 : cid = cid') (h2 : farmerId = farmerId') (h3 : batchId = batchId')
    (h4 : t = t') (h5 : u = u') :
    issueVerifiableCredential cid farmerId batchId t u =
        issueVerifiableCredential cid' farmerId' batchId' t' u' ∧
      jsonStringify (issueVerifiableCredential cid farmerId batchId t u).vcObject =
        jsonStringify (issueVerifiableCredential cid' farmerId' batchId' t' u').vcObject ∧
      (issueVerifiableCredential cid farmerId batchId t u).vcDigest =
        (issueVerifiableCredential cid' farmerId' batchId' t' u').vcDigest := by
  subst h1 h2 h3 h4 h5
  exact ⟨rfl, rfl, rfl⟩

/-- Witness for the amended C3 at concrete equal inputs. -/
theorem c3_deterministic_given_timestamp_and_uuid_witness :
    issueVerifiableCredential "cid1" "f1" "b1" "2024-01-01T00:00:00.000Z" "u1" =
        issueVerifiableCredential "cid1" "f1" "b1" "2024-01-01T00:00:00.000Z" "u1" ∧
      (issueVerifiableCredential "cid1" "f1" "b1" "2024-01-01T00:00:00.000Z" "u1").vcDigest =
        (issueVerifiableCredential "cid1" "f1" "b1" "2024-01-01T00:00:00.000Z" "u1").vcDigest :=
  ⟨(c3_deterministic_given_timestamp_and_uuid "cid1" "f1" "b1" "2024-01-01T00:00:00.000Z" "u1"
      "cid1" "f1" "b1" "2024-01-01T00:00:00.000Z" "u1" rfl rfl rfl rfl rfl).1,
   (c3_deterministic_given_timestamp_and_uuid "cid1" "f1" "b1" "2024-01-01T00:00:00.000Z" "u1"
      "cid1" "f1" "b1" "2024-01-01T00:00:00.000Z" "u1" rfl rfl rfl rfl rfl).2.2⟩
